import Mathlib

/-!
Verification model of the `fluvio-helm` crate (`src/lib.rs` and the
auxiliary module files under `src/`): a facade that builds argument
vectors for the `helm` binary, runs it, and interprets the captured
stdout/stderr.

Modelling conventions:
* a `std::process::Command` is a program name together with the ordered
  list of argument tokens appended so far;
* raw subprocess output (`Vec<u8>`) is a `List Nat` of byte values;
  Rust `String` / `&str` values are Lean `String`s, and decoded text is
  a `List Nat` of Unicode scalar values;
* fallible Rust functions returning `Result<T, HelmError>` become
  `Except HelmError T`;
* subprocess execution is an injected oracle `Command → Except HelmError Output`
  (the `fluvio_command::CommandExt::result` boundary); client methods
  additionally return the list of commands they actually executed, so
  that "the delete subprocess is never invoked" is expressible;
* `String::from_utf8` is modelled by an executable UTF-8 validator over
  byte lists, and `serde_json::from_slice` by an executable JSON reader
  (numbers are kept as raw text: no claim observes numeric values).
-/

/-- Model of `std::process::Command`: program plus ordered argument tokens. -/
structure Command where
  program : String
  args : List String
deriving DecidableEq, Repr

namespace Command

/-- `Command::new(prog)` -/
def new (prog : String) : Command := { program := prog, args := [] }

/-- `command.arg(tok)` -/
def arg (c : Command) (tok : String) : Command := { c with args := c.args ++ [tok] }

/-- `command.args(&[...])` -/
def argsAppend (c : Command) (toks : List String) : Command :=
  { c with args := c.args ++ toks }

end Command

/-- Model of `HelmError` (src/error.rs).  The payloads of `Utf8Error` and
`Serde` are foreign error values carrying no information the claims
observe, so they are dropped. -/
inductive HelmError where
  | HelmNotInstalled
  | HelmVersionNotFound (out : String)
  | FailedToConnect
  | Utf8Error
  | Serde
deriving DecidableEq, Repr

/-- Captured subprocess output: stdout and stderr as raw bytes. -/
structure Output where
  stdout : List Nat
  stderr : List Nat
deriving DecidableEq, Repr

/-- Byte/scalar-value list of an ASCII (or more generally BMP) Lean string:
used to write concrete byte inputs.  For ASCII text this coincides with
the UTF-8 byte encoding. -/
def codes (s : String) : List Nat := s.toList.map Char.toNat

/-- Executable UTF-8 validator/decoder over byte lists, modelling
`String::from_utf8`: returns the list of Unicode scalar values when the
bytes are well-formed UTF-8 (RFC 3629 tables: no overlong forms, no
surrogates, max U+10FFFF), and `none` otherwise. -/
def utf8Decode : List Nat → Option (List Nat)
  | [] => some []
  | b1 :: t1 =>
    if b1 < 0x80 then
      (utf8Decode t1).map (fun cs => b1 :: cs)
    else if b1 < 0xC2 then
      none
    else if b1 ≤ 0xDF then
      match t1 with
      | b2 :: t2 =>
        if 0x80 ≤ b2 && b2 ≤ 0xBF then
          (utf8Decode t2).map (fun cs => ((b1 % 0x20) * 0x40 + b2 % 0x40) :: cs)
        else none
      | [] => none
    else if b1 ≤ 0xEF then
      match t1 with
      | b2 :: b3 :: t3 =>
        let lo2 := if b1 = 0xE0 then 0xA0 else 0x80
        let hi2 := if b1 = 0xED then 0x9F else 0xBF
        if lo2 ≤ b2 && b2 ≤ hi2 && 0x80 ≤ b3 && b3 ≤ 0xBF then
          (utf8Decode t3).map
            (fun cs => ((b1 % 0x10) * 0x1000 + (b2 % 0x40) * 0x40 + b3 % 0x40) :: cs)
        else none
      | _ => none
    else if b1 ≤ 0xF4 then
      match t1 with
      | b2 :: b3 :: b4 :: t4 =>
        let lo2 := if b1 = 0xF0 then 0x90 else 0x80
        let hi2 := if b1 = 0xF4 then 0x8F else 0xBF
        if lo2 ≤ b2 && b2 ≤ hi2 && 0x80 ≤ b3 && b3 ≤ 0xBF && 0x80 ≤ b4 && b4 ≤ 0xBF then
          (utf8Decode t4).map
            (fun cs =>
              ((b1 % 0x8) * 0x40000 + (b2 % 0x40) * 0x1000 +
                (b3 % 0x40) * 0x40 + b4 % 0x40) :: cs)
        else none
      | _ => none
    else none

/-- `needle.isPrefixOf hay` for scalar-value lists. -/
def listIsPrefixOf : List Nat → List Nat → Bool
  | [], _ => true
  | _ :: _, [] => false
  | a :: as, b :: bs => a == b && listIsPrefixOf as bs

/-- Rust `str::contains(pattern)` for a string pattern, on scalar-value
lists: contiguous-substring search. -/
def hasSub (needle : List Nat) : List Nat → Bool
  | [] => needle.isEmpty
  | b :: bs => listIsPrefixOf needle (b :: bs) || hasSub needle bs

/-- The stderr marker scanned for by `check_helm_stderr`. -/
def kubeMarker : List Nat := codes "Kubernetes cluster unreachable"

/-- Model of `check_helm_stderr` (src/lib.rs): on a non-empty stderr,
decode it as UTF-8 (failure is a `Utf8Error`) and report
`FailedToConnect` when it contains the cluster-unreachable marker;
an empty stderr always passes. -/
def check_helm_stderr (stderr : List Nat) : Except HelmError Unit :=
  if !stderr.isEmpty then
    match utf8Decode stderr with
    | none => .error HelmError.Utf8Error
    | some s =>
      if hasSub kubeMarker s then .error HelmError.FailedToConnect
      else .ok ()
  else .ok ()

/-- Rust `char::is_whitespace`: the Unicode `White_Space` scalar values. -/
def isRustWhitespace (c : Nat) : Bool :=
  c == 0x09 || c == 0x0A || c == 0x0B || c == 0x0C || c == 0x0D || c == 0x20 ||
  c == 0x85 || c == 0xA0 || c == 0x1680 ||
  (0x2000 ≤ c && c ≤ 0x200A) ||
  c == 0x2028 || c == 0x2029 || c == 0x202F || c == 0x205F || c == 0x3000

/-- Rust `str::trim_start_matches('v')`: drop every leading `'v'` (0x76). -/
def trimStartMatchesV : List Nat → List Nat
  | 0x76 :: t => trimStartMatchesV t
  | l => l

/-- Rust `str::trim`: drop whitespace from both ends. -/
def trimRust (l : List Nat) : List Nat :=
  ((l.dropWhile isRustWhitespace).reverse.dropWhile isRustWhitespace).reverse

/-- Model of `sanitize_helm_version_string` (src/lib.rs):
`version_text.trim_start_matches('v').trim().to_string()`. -/
def sanitize_helm_version_string (version_text : List Nat) : List Nat :=
  trimRust (trimStartMatchesV version_text)

/-! ## JSON reading (model of `serde_json::from_slice`)

JSON values; object keys and string contents are scalar-value lists,
numbers are kept as their raw text (no claim observes numeric values). -/

inductive Json where
  | null
  | jbool (b : Bool)
  | num (raw : List Nat)
  | str (s : List Nat)
  | arr (xs : List Json)
  | obj (kvs : List (List Nat × Json))

/-- JSON insignificant whitespace. -/
def jsonWs (c : Nat) : Bool := c == 0x20 || c == 0x09 || c == 0x0A || c == 0x0D

def skipWs (l : List Nat) : List Nat := l.dropWhile jsonWs

/-- Value of a hexadecimal digit. -/
def hexVal (c : Nat) : Option Nat :=
  if 0x30 ≤ c && c ≤ 0x39 then some (c - 0x30)
  else if 0x41 ≤ c && c ≤ 0x46 then some (c - 0x37)
  else if 0x61 ≤ c && c ≤ 0x66 then some (c - 0x57)
  else none

/-- Value of a single-character JSON escape. -/
def escVal (c : Nat) : Option Nat :=
  if c == 0x22 || c == 0x5C || c == 0x2F then some c
  else if c == 0x62 then some 0x08
  else if c == 0x66 then some 0x0C
  else if c == 0x6E then some 0x0A
  else if c == 0x72 then some 0x0D
  else if c == 0x74 then some 0x09
  else none

/-- Parse the body of a JSON string after its opening quote; returns the
decoded contents and the remaining input after the closing quote.
Escapes are decoded (`\uXXXX` as the bare code unit: surrogate pairing
is not modelled, no claim uses it); raw control characters are refused. -/
def parseStrBody : List Nat → Option (List Nat × List Nat)
  | [] => none
  | c :: rest =>
    if c == 0x22 then some ([], rest)
    else if c == 0x5C then
      match rest with
      | [] => none
      | e :: rest2 =>
        if e == 0x75 then
          match rest2 with
          | h1 :: h2 :: h3 :: h4 :: rest3 =>
            match hexVal h1, hexVal h2, hexVal h3, hexVal h4 with
            | some v1, some v2, some v3, some v4 =>
              (parseStrBody rest3).map
                (fun sr => ((((v1 * 16 + v2) * 16 + v3) * 16 + v4) :: sr.1, sr.2))
            | _, _, _, _ => none
          | _ => none
        else
          match escVal e with
          | some v => (parseStrBody rest2).map (fun sr => (v :: sr.1, sr.2))
          | none => none
    else if c < 0x20 then none
    else (parseStrBody rest).map (fun sr => (c :: sr.1, sr.2))

/-- Characters that may make up a JSON number token. -/
def isNumChar (c : Nat) : Bool :=
  (0x30 ≤ c && c ≤ 0x39) || c == 0x2D || c == 0x2B || c == 0x2E || c == 0x65 || c == 0x45

mutual

/-- Parse one JSON value (fuelled recursion so that the kernel can
evaluate the reader on concrete inputs). -/
def parseVal : Nat → List Nat → Option (Json × List Nat)
  | 0, _ => none
  | f + 1, l =>
    match skipWs l with
    | [] => none
    | c :: rest =>
      if c == 0x22 then
        (parseStrBody rest).map (fun sr => (Json.str sr.1, sr.2))
      else if c == 0x5B then
        (parseArrStart f rest).map (fun ar => (Json.arr ar.1, ar.2))
      else if c == 0x7B then
        (parseObjStart f rest).map (fun kr => (Json.obj kr.1, kr.2))
      else if c == 0x74 then
        match rest with
        | r1 :: u1 :: e1 :: rest2 =>
          if r1 == 0x72 && u1 == 0x75 && e1 == 0x65 then some (Json.jbool true, rest2)
          else none
        | _ => none
      else if c == 0x66 then
        match rest with
        | a1 :: l1 :: s1 :: e1 :: rest2 =>
          if a1 == 0x61 && l1 == 0x6C && s1 == 0x73 && e1 == 0x65 then
            some (Json.jbool false, rest2)
          else none
        | _ => none
      else if c == 0x6E then
        match rest with
        | u1 :: l1 :: l2 :: rest2 =>
          if u1 == 0x75 && l1 == 0x6C && l2 == 0x6C then some (Json.null, rest2)
          else none
        | _ => none
      else if isNumChar c then
        some (Json.num (c :: rest.takeWhile isNumChar), rest.dropWhile isNumChar)
      else none

/-- Array contents just after `[`: either an immediate `]` or a first
element followed by the comma-separated tail. -/
def parseArrStart : Nat → List Nat → Option (List Json × List Nat)
  | 0, _ => none
  | f + 1, l =>
    match skipWs l with
    | 0x5D :: rest => some ([], rest)
    | l2 =>
      match parseVal f l2 with
      | some vr =>
        (parseArrRest f vr.2).map (fun ar => (vr.1 :: ar.1, ar.2))
      | none => none

/-- Array tail after an element: `,` element ... or the closing `]`. -/
def parseArrRest : Nat → List Nat → Option (List Json × List Nat)
  | 0, _ => none
  | f + 1, l =>
    match skipWs l with
    | 0x5D :: rest => some ([], rest)
    | 0x2C :: rest =>
      match parseVal f rest with
      | some vr =>
        (parseArrRest f vr.2).map (fun ar => (vr.1 :: ar.1, ar.2))
      | none => none
    | _ => none

/-- One `"key": value` object member. -/
def parseMember : Nat → List Nat → Option ((List Nat × Json) × List Nat)
  | 0, _ => none
  | f + 1, l =>
    match skipWs l with
    | 0x22 :: rest =>
      match parseStrBody rest with
      | some kr =>
        match skipWs kr.2 with
        | 0x3A :: rest2 =>
          (parseVal f rest2).map (fun vr => ((kr.1, vr.1), vr.2))
        | _ => none
      | none => none
    | _ => none

/-- Object contents just after the opening brace. -/
def parseObjStart : Nat → List Nat → Option (List (List Nat × Json) × List Nat)
  | 0, _ => none
  | f + 1, l =>
    match skipWs l with
    | 0x7D :: rest => some ([], rest)
    | l2 =>
      match parseMember f l2 with
      | some mr =>
        (parseObjRest f mr.2).map (fun or2 => (mr.1 :: or2.1, or2.2))
      | none => none

/-- Object tail after a member: `,` member ... or the closing brace. -/
def parseObjRest : Nat → List Nat → Option (List (List Nat × Json) × List Nat)
  | 0, _ => none
  | f + 1, l =>
    match skipWs l with
    | 0x7D :: rest => some ([], rest)
    | 0x2C :: rest =>
      match parseMember f rest with
      | some mr =>
        (parseObjRest f mr.2).map (fun or2 => (mr.1 :: or2.1, or2.2))
      | none => none
    | _ => none

end

/-- Parse a complete JSON document (one value, then only whitespace). -/
def json_from_codes (l : List Nat) : Option Json :=
  match parseVal (4 * l.length + 8) l with
  | some vr => if (skipWs vr.2).isEmpty then some vr.1 else none
  | none => none

/-- Scalar-value list back to a Lean string (values are valid by
construction of the decoder on the inputs we use). -/
def strOfCodes (l : List Nat) : String := (l.map Char.ofNat).asString

/-- Model of `Chart` (src/lib.rs): a search-result record. -/
structure Chart where
  name : String
  version : String
deriving DecidableEq, Repr

/-- Model of `InstalledChart` (src/lib.rs): an installed-release record. -/
structure InstalledChart where
  name : String
  app_version : String
  revision : String
  updated : String
  status : String
  chart : String
deriving DecidableEq, Repr

/-- First binding of a key in a JSON object (serde reads fields in
order; inputs in scope never carry duplicate keys). -/
def objGet (kvs : List (List Nat × Json)) (k : List Nat) : Option Json :=
  (kvs.find? (fun kv => kv.1 == k)).map (fun kv => kv.2)

/-- A required `String` struct field: present and a JSON string. -/
def getStrField (kvs : List (List Nat × Json)) (k : String) : Option String :=
  match objGet kvs (codes k) with
  | some (Json.str s) => some (strOfCodes s)
  | _ => none

/-- serde decode of one `Chart` (unknown fields ignored, both fields
required strings). -/
def chartOfJson : Json → Option Chart
  | Json.obj kvs =>
    match getStrField kvs "name", getStrField kvs "version" with
    | some n, some v => some { name := n, version := v }
    | _, _ => none
  | _ => none

/-- serde decode of one `InstalledChart` (unknown fields ignored, all
six fields required strings). -/
def installedChartOfJson : Json → Option InstalledChart
  | Json.obj kvs =>
    match getStrField kvs "name", getStrField kvs "app_version",
        getStrField kvs "revision", getStrField kvs "updated",
        getStrField kvs "status", getStrField kvs "chart" with
    | some n, some av, some rev, some upd, some st, some ch =>
      some { name := n, app_version := av, revision := rev,
             updated := upd, status := st, chart := ch }
    | _, _, _, _, _, _ => none
  | _ => none

/-- Decode each element of a JSON array. -/
def vecFromJson (f : Json → Option α) : Json → Option (List α)
  | Json.arr xs => mapOption f xs
  | _ => none
where
  mapOption (f : Json → Option α) : List Json → Option (List α)
    | [] => some []
    | x :: xs =>
      match f x, mapOption f xs with
      | some a, some as => some (a :: as)
      | _, _ => none

/-- Model of `serde_json::from_slice::<Vec<Chart>>`: any failure
(invalid UTF-8, malformed JSON, shape mismatch) is the `Serde` error. -/
def from_slice_charts (bytes : List Nat) : Except HelmError (List Chart) :=
  match utf8Decode bytes with
  | none => .error HelmError.Serde
  | some cps =>
    match json_from_codes cps with
    | none => .error HelmError.Serde
    | some v =>
      match vecFromJson chartOfJson v with
      | none => .error HelmError.Serde
      | some xs => .ok xs

/-- Model of `serde_json::from_slice::<Vec<InstalledChart>>`. -/
def from_slice_installed (bytes : List Nat) : Except HelmError (List InstalledChart) :=
  match utf8Decode bytes with
  | none => .error HelmError.Serde
  | some cps =>
    match json_from_codes cps with
    | none => .error HelmError.Serde
    | some v =>
      match vecFromJson installedChartOfJson v with
      | none => .error HelmError.Serde
      | some xs => .ok xs

/-! ## Request builders -/

/-- Model of `InstallArg` (src/lib.rs, the live variant: plain `Vec`,
paths as strings). -/
structure InstallArg where
  name : String
  chart : String
  version : Option String
  nspace : Option String
  opts : List (String × String)
  values : List String
  develop : Bool
deriving DecidableEq, Repr

namespace InstallArg

/-- `InstallArg::new(name, chart)` -/
def new (name chart : String) : InstallArg :=
  { name := name, chart := chart, version := none, nspace := none,
    opts := [], values := [], develop := false }

/-- Model of `InstallArg::apply_args` (src/lib.rs): the sequence of
conditional appends performed on the command. -/
def apply_args (arg : InstallArg) (command : Command) : Command :=
  let command :=
    match arg.nspace with
    | some ns => command.argsAppend ["--namespace", ns]
    | none => command
  let command := if arg.develop then command.arg "--devel" else command
  let command :=
    match arg.version with
    | some version => command.argsAppend ["--version", version]
    | none => command
  let command :=
    arg.values.foldl (fun command value_path => (command.arg "--values").arg value_path) command
  arg.opts.foldl
    (fun command kv => (command.arg "--set").arg (kv.1 ++ "=" ++ kv.2)) command

/-- Model of `InstallArg::install` (src/lib.rs). -/
def install (arg : InstallArg) : Command :=
  let command := Command.new "helm"
  let command := command.argsAppend ["install", arg.name, arg.chart]
  arg.apply_args command

/-- Model of `InstallArg::upgrade` (src/lib.rs). -/
def upgrade (arg : InstallArg) : Command :=
  let command := Command.new "helm"
  let command := command.argsAppend ["upgrade", "--install", arg.name, arg.chart]
  arg.apply_args command

end InstallArg

/-- Model of `UninstallArg` (src/lib.rs). -/
structure UninstallArg where
  release : String
  nspace : Option String
  ignore_not_found : Bool
  dry_run : Bool
  timeout : Option String
deriving DecidableEq, Repr

/-- Model of `impl From<UninstallArg> for Command` (src/lib.rs): note
that `ignore_not_found` contributes no token, and the `Option` timeout
is iterated like a zero-or-one element collection. -/
def uninstall_command (arg : UninstallArg) : Command :=
  let command := Command.new "helm"
  let command := command.argsAppend ["uninstall", arg.release]
  let command :=
    match arg.nspace with
    | some ns => command.argsAppend ["--namespace", ns]
    | none => command
  let command := if arg.dry_run then command.arg "--dry-run" else command
  match arg.timeout with
  | some timeout => (command.arg "--timeout").arg timeout
  | none => command

/-- Model of `RegistryLoginArg` (src/registry_login_arg.rs). -/
structure RegistryLoginArg where
  host : String
  username : String
  password : String
deriving DecidableEq, Repr

/-- Model of `impl Into<Command> for RegistryLoginArg`
(src/registry_login_arg.rs): the exact append sequence of the source. -/
def registry_login_command (arg : RegistryLoginArg) : Command :=
  let command := Command.new "helm"
  let command := command.argsAppend ["registry"]
  let command := command.argsAppend ["login"]
  let command := command.arg arg.host
  let command := command.argsAppend ["--username", arg.username]
  command.argsAppend ["--password", arg.password]

/-- Model of `GetInstalledArg` (src/get_installed_arg.rs). -/
structure GetInstalledArg where
  all : Option Bool
  all_namespaces : Option Bool
  date : Option Bool
  pending : Option Bool
  reverse : Option Bool
  short : Option Bool
  superseded : Option Bool
  uninstalled : Option Bool
  uninstalling : Option Bool
  filter : Option String
  selector : Option String
  time_format : Option String
  nspace : Option String
  max : Option Nat
  offset : Option Nat
deriving DecidableEq, Repr

/-- `if let Some(b) = field { if *b == true { args(flag) } }` -/
def pushOptFlag (command : Command) (field : Option Bool) (flag : String) : Command :=
  match field with
  | some b => if b == true then command.argsAppend [flag] else command
  | none => command

/-- `if let Some(s) = field { args(&[flag, s]) }` -/
def pushOptPair (command : Command) (field : Option String) (flag : String) : Command :=
  match field with
  | some s => command.argsAppend [flag, s]
  | none => command

/-- Model of `impl Into<Command> for GetInstalledArg`
(src/get_installed_arg.rs). -/
def get_installed_arg_command (arg : GetInstalledArg) : Command :=
  let command := Command.new "helm"
  let command := command.argsAppend ["list"]
  let command := command.argsAppend ["--output", "json"]
  let command := pushOptFlag command arg.all "--all"
  let command := pushOptFlag command arg.all_namespaces "--all-namespaces"
  let command := pushOptFlag command arg.date "--date"
  let command := pushOptFlag command arg.pending "--pending"
  let command := pushOptFlag command arg.reverse "--reverse"
  let command := pushOptFlag command arg.short "--short"
  let command := pushOptFlag command arg.superseded "--superseded"
  let command := pushOptFlag command arg.uninstalled "--uninstalled"
  let command := pushOptFlag command arg.uninstalling "--uninstalling"
  let command := pushOptPair command arg.filter "--filter"
  let command := pushOptPair command arg.selector "--selector"
  let command := pushOptPair command arg.time_format "--time-format"
  let command := pushOptPair command arg.nspace "--namespace"
  let command := pushOptPair command (arg.max.map Nat.repr) "--max"
  pushOptPair command (arg.offset.map Nat.repr) "--offset"

/-! ## Operation client

The `fluvio_command::CommandExt::result` execution boundary is an
injected oracle; each method also returns the list of commands it
actually executed, making subprocess-invocation counting expressible. -/

/-- Oracle for `command.result()`: run a command, yielding captured
output or a subprocess-level error. -/
def Exec := Command → Except HelmError Output

/-- Command built by `HelmClient::search_repo` (src/lib.rs). -/
def search_repo_command (chart version : String) : Command :=
  let command := Command.new "helm"
  let command := command.argsAppend ["search", "repo", chart]
  let command := command.argsAppend ["--version", version]
  command.argsAppend ["--output", "json"]

/-- Command built by `HelmClient::versions` (src/lib.rs). -/
def versions_command (chart : String) : Command :=
  let command := Command.new "helm"
  let command := command.argsAppend ["search", "repo"]
  let command := command.argsAppend ["--versions", chart]
  command.argsAppend ["--output", "json", "--devel"]

/-- Command built by `HelmClient::get_installed_chart_by_name`
(src/lib.rs): anchored filter, then either the namespace pair or `-A`. -/
def get_installed_command (name : String) (nspace : Option String) : Command :=
  let exact_match := "^" ++ name ++ "$"
  let command := Command.new "helm"
  let command := command.arg "list"
  let command := command.arg "--filter"
  let command := command.arg exact_match
  let command := command.arg "--output"
  let command := command.arg "json"
  match nspace with
  | some ns => command.argsAppend ["--namespace", ns]
  | none => command.argsAppend ["-A"]

namespace HelmClient

/-- Model of `HelmClient::search_repo` (src/lib.rs): run the search
command, check stderr, then decode stdout. -/
def search_repo (exec : Exec) (chart version : String) :
    Except HelmError (List Chart) × List Command :=
  let command := search_repo_command chart version
  match exec command with
  | .error e => (.error e, [command])
  | .ok output =>
    match check_helm_stderr output.stderr with
    | .error e => (.error e, [command])
    | .ok _ => (from_slice_charts output.stdout, [command])

/-- Model of `HelmClient::versions` (src/lib.rs). -/
def versions (exec : Exec) (chart : String) :
    Except HelmError (List Chart) × List Command :=
  let command := versions_command chart
  match exec command with
  | .error e => (.error e, [command])
  | .ok output =>
    match check_helm_stderr output.stderr with
    | .error e => (.error e, [command])
    | .ok _ => (from_slice_charts output.stdout, [command])

/-- Model of `HelmClient::chart_version_exists` (src/lib.rs): the
result of `search_repo`, post-filtered in memory for exact name and
version matches, counted, compared with zero. -/
def chart_version_exists (exec : Exec) (name version : String) :
    Except HelmError Bool × List Command :=
  let searched := search_repo exec name version
  match searched.1 with
  | .error e => (.error e, searched.2)
  | .ok vs =>
    let count := (vs.filter (fun chart => chart.name == name && chart.version == version)).length
    (.ok (decide (count > 0)), searched.2)

/-- Model of `HelmClient::get_installed_chart_by_name` (src/lib.rs). -/
def get_installed_chart_by_name (exec : Exec) (name : String)
    (nspace : Option String) :
    Except HelmError (List InstalledChart) × List Command :=
  let command := get_installed_command name nspace
  match exec command with
  | .error e => (.error e, [command])
  | .ok output =>
    match check_helm_stderr output.stderr with
    | .error e => (.error e, [command])
    | .ok _ => (from_slice_installed output.stdout, [command])

/-- Model of `HelmClient::list_installed` (src/helm_client.rs). -/
def list_installed (exec : Exec) (args : GetInstalledArg) :
    Except HelmError (List InstalledChart) × List Command :=
  let command := get_installed_arg_command args
  match exec command with
  | .error e => (.error e, [command])
  | .ok output =>
    match check_helm_stderr output.stderr with
    | .error e => (.error e, [command])
    | .ok _ => (from_slice_installed output.stdout, [command])

/-- Model of `HelmClient::uninstall` (src/lib.rs): when
`ignore_not_found` is set, look the release up first and short-circuit
to success on an empty result; otherwise run the uninstall command. -/
def uninstall (exec : Exec) (arg : UninstallArg) :
    Except HelmError Unit × List Command :=
  if arg.ignore_not_found then
    let looked := get_installed_chart_by_name exec arg.release arg.nspace
    match looked.1 with
    | .error e => (.error e, looked.2)
    | .ok app_charts =>
      if app_charts.isEmpty then (.ok (), looked.2)
      else
        let command := uninstall_command arg
        match exec command with
        | .error e => (.error e, looked.2 ++ [command])
        | .ok _ => (.ok (), looked.2 ++ [command])
  else
    let command := uninstall_command arg
    match exec command with
    | .error e => (.error e, [command])
    | .ok _ => (.ok (), [command])

end HelmClient

/-! ## Spec-side token descriptions (used to state the claims) -/

/-- Tokens the spec assigns to the optional namespace of an install. -/
def namespaceTokens (arg : InstallArg) : List String :=
  match arg.nspace with
  | some ns => ["--namespace", ns]
  | none => []

/-- Tokens the spec assigns to the develop flag. -/
def develTokens (arg : InstallArg) : List String :=
  if arg.develop then ["--devel"] else []

/-- Tokens the spec assigns to the optional version. -/
def versionTokens (arg : InstallArg) : List String :=
  match arg.version with
  | some v => ["--version", v] | none => []

/-- Tokens the spec assigns to the values files, one pair per file. -/
def valuesTokens (arg : InstallArg) : List String :=
  (arg.values.map (fun p => ["--values", p])).flatten

/-- Tokens the spec assigns to the key/value overrides, one
`--set key=value` pair per override, in list order. -/
def setTokens (arg : InstallArg) : List String :=
  (arg.opts.map (fun kv => ["--set", kv.1 ++ "=" ++ kv.2])).flatten

/-- Tokens the spec assigns to the namespace filter of
`get_installed_chart_by_name`: the namespace pair, or `-A` meaning all
namespaces. -/
def namespaceFilterTokens : Option String → List String
  | some ns => ["--namespace", ns]
  | none => ["-A"]

/-! ## Concrete fixtures for witnesses -/

/-- An execution oracle answering every command with a one-chart search
result and a clean stderr. -/
def execSearchOne : Exec := fun _ =>
  .ok { stdout := codes "[\x7b\"name\":\"fluvio/fluvio\",\"version\":\"0.9.1\"\x7d]",
        stderr := [] }

/-- An execution oracle answering with an empty JSON list and a
cluster-unreachable stderr. -/
def execUnreachable : Exec := fun _ =>
  .ok { stdout := codes "[]",
        stderr := codes "Error: Kubernetes cluster unreachable" }

/-- An execution oracle answering with a decodable stdout but stderr
bytes that are not valid UTF-8. -/
def execBadStderr : Exec := fun _ =>
  .ok { stdout := codes "[]", stderr := [0xFF] }

/-- An execution oracle answering every command with an empty JSON list
and a clean stderr. -/
def execEmptyList : Exec := fun _ =>
  .ok { stdout := codes "[]", stderr := [] }

/-- A concrete uninstall request with `ignore_not_found` set. -/
def uninstallArg0 : UninstallArg :=
  { release := "fluvio", nspace := none, ignore_not_found := true,
    dry_run := false, timeout := none }

/-- A concrete list-installed request with every optional field absent. -/
def gargNone : GetInstalledArg :=
  { all := none, all_namespaces := none, date := none, pending := none,
    reverse := none, short := none, superseded := none, uninstalled := none,
    uninstalling := none, filter := none, selector := none,
    time_format := none, nspace := none, max := none, offset := none }

/-- The fixed sample JSON of the crate's `test_parse_get_installed_charts`. -/
def sampleInstalledJson : List Nat :=
  codes "[\x7b\"name\":\"test_chart\",\"namespace\":\"default\",\"revision\":\"50\",\"updated\":\"2021-03-17 08:42:54.546347741 +0000 UTC\",\"status\":\"deployed\",\"chart\":\"test_chart-1.2.32-rc2\",\"app_version\":\"1.2.32-rc2\"\x7d]"

/-- The single record the sample JSON decodes to. -/
def sampleInstalledChart : InstalledChart :=
  { name := "test_chart", app_version := "1.2.32-rc2", revision := "50",
    updated := "2021-03-17 08:42:54.546347741 +0000 UTC",
    status := "deployed", chart := "test_chart-1.2.32-rc2" }

/-! ## Helper lemmas -/

/-- Unrolling the flag/argument-pair folds of the builders. -/
theorem foldl_pair_args (g : α → String) (flag : String) (l : List α) (c : Command) :
    (l.foldl (fun command x => (command.arg flag).arg (g x)) c).args
      = c.args ++ (l.map (fun x => [flag, g x])).flatten := by
  induction l generalizing c with
  | nil => simp
  | cons x xs ih =>
    rw [List.foldl_cons, ih]
    simp [Command.arg]

/-- `apply_args` produces exactly the spec's flag blocks, in the spec's
order, appended to whatever was already on the command. -/
theorem apply_args_spec (arg : InstallArg) (c : Command) :
    (arg.apply_args c).args
      = c.args ++ (namespaceTokens arg ++ develTokens arg ++ versionTokens arg
          ++ valuesTokens arg ++ setTokens arg) := by
  unfold InstallArg.apply_args namespaceTokens develTokens versionTokens valuesTokens setTokens
  cases arg.nspace <;> cases arg.version <;> cases arg.develop <;>
    (simp only [foldl_pair_args]; simp [Command.arg, Command.argsAppend])

theorem uninstall_command_head (arg : UninstallArg) :
    (uninstall_command arg).args.head? = some "uninstall" := by
  unfold uninstall_command
  cases arg.nspace <;> cases arg.dry_run <;> cases arg.timeout <;>
    simp [Command.new, Command.arg, Command.argsAppend]

theorem get_installed_command_head (name : String) (nspace : Option String) :
    (get_installed_command name nspace).args.head? = some "list" := by
  unfold get_installed_command
  cases nspace <;> simp [Command.new, Command.arg, Command.argsAppend]

theorem uninstall_command_ne_get_installed (arg : UninstallArg) (name : String)
    (nspace : Option String) : uninstall_command arg ≠ get_installed_command name nspace := by
  intro h
  have h2 : (uninstall_command arg).args.head? = (get_installed_command name nspace).args.head? := by
    rw [h]
  rw [uninstall_command_head, get_installed_command_head] at h2
  simp at h2

/-! ## Claim theorems -/

/-- C1: for every `InstallArg`, the vector rendered by `install` begins
with `install`, the release name, the chart reference, in that order
(for `upgrade`: `upgrade`, `--install`, name, chart), followed by the
flag blocks in the fixed declared order namespace, devel, version,
values, set-overrides; and every absent optional field (none, false,
empty list) contributes zero tokens. -/
theorem install_upgrade_arg_vector_layout (arg : InstallArg) :
    (arg.install).args
        = ["install", arg.name, arg.chart]
          ++ (namespaceTokens arg ++ develTokens arg ++ versionTokens arg
              ++ valuesTokens arg ++ setTokens arg)
    ∧ (arg.upgrade).args
        = ["upgrade", "--install", arg.name, arg.chart]
          ++ (namespaceTokens arg ++ develTokens arg ++ versionTokens arg
              ++ valuesTokens arg ++ setTokens arg)
    ∧ (arg.nspace = none → namespaceTokens arg = [])
    ∧ (arg.develop = false → develTokens arg = [])
    ∧ (arg.version = none → versionTokens arg = [])
    ∧ (arg.values = [] → valuesTokens arg = [])
    ∧ (arg.opts = [] → setTokens arg = []) := by
  refine ⟨?_, ?_, ?_, ?_, ?_, ?_, ?_⟩
  · simp [InstallArg.install, apply_args_spec, Command.new, Command.argsAppend]
  · simp [InstallArg.upgrade, apply_args_spec, Command.new, Command.argsAppend]
  · intro h; simp [namespaceTokens, h]
  · intro h; simp [develTokens, h]
  · intro h; simp [versionTokens, h]
  · intro h; simp [valuesTokens, h]
  · intro h; simp [setTokens, h]

/-- Witness for C1 at a concrete request with every optional field
absent: only the verb tokens, name and chart are rendered. -/
theorem install_upgrade_arg_vector_layout_witness :
    (InstallArg.new "fluvio" "fluvio/fluvio").install.args
        = ["install", "fluvio", "fluvio/fluvio"]
    ∧ (InstallArg.new "fluvio" "fluvio/fluvio").upgrade.args
        = ["upgrade", "--install", "fluvio", "fluvio/fluvio"] := by
  have h := install_upgrade_arg_vector_layout (InstallArg.new "fluvio" "fluvio/fluvio")
  refine ⟨?_, ?_⟩
  · rw [h.1, h.2.2.1 rfl, h.2.2.2.1 rfl, h.2.2.2.2.1 rfl, h.2.2.2.2.2.1 rfl,
      h.2.2.2.2.2.2 rfl]
    rfl
  · rw [h.2.1, h.2.2.1 rfl, h.2.2.2.1 rfl, h.2.2.2.2.1 rfl, h.2.2.2.2.2.1 rfl,
      h.2.2.2.2.2.2 rfl]
    rfl

/-- C2: the override pairs of an `InstallArg` render as exactly one
`--set key=value` flag pair each, appended after everything else in the
caller's insertion order (so N pairs contribute exactly 2·N tokens),
and rendering is deterministic: rendering the same value twice yields
identical vectors. -/
theorem set_overrides_render_in_order (arg : InstallArg) :
    (arg.install).args
        = (InstallArg.install { arg with opts := [] }).args
          ++ (arg.opts.map (fun kv => ["--set", kv.1 ++ "=" ++ kv.2])).flatten
    ∧ (arg.opts.map (fun kv => ["--set", kv.1 ++ "=" ++ kv.2])).flatten.length
        = 2 * arg.opts.length
    ∧ arg.install = arg.install ∧ arg.upgrade = arg.upgrade := by
  obtain ⟨n, ch, ver, ns, opts, vals, dev⟩ := arg
  refine ⟨?_, ?_, rfl, rfl⟩
  · cases ns <;> cases ver <;> cases dev <;>
      simp [InstallArg.install, apply_args_spec, Command.new, Command.argsAppend,
        namespaceTokens, develTokens, versionTokens, valuesTokens, setTokens]
  · induction opts with
    | nil => simp
    | cons kv t ih => simp [ih]; omega

/-- C5: version-string normalization strips the optional leading `v`
marker and surrounding whitespace: both sample inputs of the claim
normalize to exactly `3.15.4+gfa9efb0`. -/
theorem helm_version_string_sanitization :
    sanitize_helm_version_string (codes "v3.15.4+gfa9efb0") = codes "3.15.4+gfa9efb0"
    ∧ sanitize_helm_version_string (codes "3.15.4+gfa9efb0") = codes "3.15.4+gfa9efb0" := by
  decide

/-- C6: `get_installed_chart_by_name` renders the filter argument as
the anchored pattern `^name$` (the third token), and a `none` namespace
renders the all-namespaces token `-A`. -/
theorem get_installed_by_name_anchored_filter (name : String) (nspace : Option String) :
    (get_installed_command name nspace).args
        = ["list", "--filter", "^" ++ name ++ "$", "--output", "json"]
          ++ namespaceFilterTokens nspace
    ∧ (get_installed_command name nspace).args.get? 2 = some ("^" ++ name ++ "$")
    ∧ (nspace = none → namespaceFilterTokens nspace = ["-A"]) := by
  refine ⟨?_, ?_, ?_⟩ <;>
    cases nspace <;>
      simp [get_installed_command, namespaceFilterTokens, Command.new, Command.arg,
        Command.argsAppend]

/-- Witness for C6 at a concrete name with no namespace: the anchored
filter and the `-A` token are both rendered. -/
theorem get_installed_by_name_anchored_filter_witness :
    (get_installed_command "fluvio" none).args
      = ["list", "--filter", "^fluvio$", "--output", "json", "-A"] := by
  have h := get_installed_by_name_anchored_filter "fluvio" none
  rw [h.1, h.2.2 rfl]
  rfl

/-- The search operation always executes exactly its own command. -/
theorem search_repo_commands (exec : Exec) (chart version : String) :
    (HelmClient.search_repo exec chart version).2 = [search_repo_command chart version] := by
  unfold HelmClient.search_repo
  cases hx : exec (search_repo_command chart version) with
  | error e => simp [hx]
  | ok output => cases hy : check_helm_stderr output.stderr <;> simp [hx, hy]

/-- C7: `chart_version_exists` returns `true` iff the decoded search
result holds a record matching both queried fields (`false` on the
empty list), and it executes exactly the single `search_repo`
subprocess: the check itself is an in-memory post-filter. -/
theorem chart_version_exists_exact_match (exec : Exec) (name version : String)
    (vs : List Chart)
    (h : (HelmClient.search_repo exec name version).1 = .ok vs) :
    ((HelmClient.chart_version_exists exec name version).1 = .ok true
        ↔ ∃ c ∈ vs, c.name = name ∧ c.version = version)
    ∧ (vs = [] → (HelmClient.chart_version_exists exec name version).1 = .ok false)
    ∧ (HelmClient.chart_version_exists exec name version).2
        = (HelmClient.search_repo exec name version).2
    ∧ (HelmClient.chart_version_exists exec name version).2.length = 1 := by
  refine ⟨?_, ?_, ?_, ?_⟩
  · simp only [HelmClient.chart_version_exists, h]
    rw [← List.countP_eq_length_filter]
    simp [List.countP_pos_iff, Bool.and_eq_true, beq_iff_eq]
  · intro hv; subst hv
    simp [HelmClient.chart_version_exists, h]
  · simp only [HelmClient.chart_version_exists, h]
  · simp only [HelmClient.chart_version_exists, h]
    rw [search_repo_commands]
    rfl

/-- Witness for C7: against a one-element search result matching the
query exactly, the existence check answers `true`. -/
theorem chart_version_exists_exact_match_witness :
    (HelmClient.chart_version_exists execSearchOne "fluvio/fluvio" "0.9.1").1
      = .ok true := by
  have h := chart_version_exists_exact_match execSearchOne "fluvio/fluvio" "0.9.1"
      [{ name := "fluvio/fluvio", version := "0.9.1" }] rfl
  exact h.1.mpr ⟨{ name := "fluvio/fluvio", version := "0.9.1" }, by simp, rfl, rfl⟩

set_option maxRecDepth 100000 in
/-- C8: decoding the crate's fixed sample JSON as a list of installed
releases succeeds with exactly one record, whose `name` is
`test_chart` and whose `chart` is `test_chart-1.2.32-rc2`. -/
theorem installed_chart_sample_decode :
    from_slice_installed sampleInstalledJson = .ok [sampleInstalledChart]
    ∧ [sampleInstalledChart].length = 1
    ∧ sampleInstalledChart.name = "test_chart"
    ∧ sampleInstalledChart.chart = "test_chart-1.2.32-rc2" :=
  ⟨rfl, rfl, rfl, rfl⟩

/-- C10: the registry-login builder places username and password
verbatim on the command line, each immediately after its flag. -/
theorem registry_login_password_cleartext (arg : RegistryLoginArg) :
    (registry_login_command arg).args
        = ["registry", "login", arg.host, "--username", arg.username,
           "--password", arg.password]
    ∧ (registry_login_command arg).args.get? 5 = some "--password"
    ∧ (registry_login_command arg).args.get? 6 = some arg.password
    ∧ (registry_login_command arg).args.get? 3 = some "--username"
    ∧ (registry_login_command arg).args.get? 4 = some arg.username := by
  have h : (registry_login_command arg).args
      = ["registry", "login", arg.host, "--username", arg.username,
         "--password", arg.password] := by
    simp [registry_login_command, Command.new, Command.arg, Command.argsAppend]
  exact ⟨h, by rw [h]; rfl, by rw [h]; rfl, by rw [h]; rfl, by rw [h]; rfl⟩

/-- The by-name lookup always executes exactly its own command. -/
theorem get_installed_commands (exec : Exec) (name : String) (nspace : Option String) :
    (HelmClient.get_installed_chart_by_name exec name nspace).2
      = [get_installed_command name nspace] := by
  unfold HelmClient.get_installed_chart_by_name
  cases hx : exec (get_installed_command name nspace) with
  | error e => simp [hx]
  | ok output => cases hy : check_helm_stderr output.stderr <;> simp [hx, hy]

/-- C3: with `ignore_not_found` set and an empty lookup result,
`uninstall` reports success and never runs the uninstall command; with
a non-empty lookup result, or with the flag unset, the uninstall
command is executed. -/
theorem uninstall_ignore_not_found_short_circuit (exec : Exec) (arg : UninstallArg) :
    (arg.ignore_not_found = true →
      (HelmClient.get_installed_chart_by_name exec arg.release arg.nspace).1 = .ok [] →
      (HelmClient.uninstall exec arg).1 = .ok ()
        ∧ uninstall_command arg ∉ (HelmClient.uninstall exec arg).2)
    ∧ (arg.ignore_not_found = true →
        ∀ charts,
          (HelmClient.get_installed_chart_by_name exec arg.release arg.nspace).1 = .ok charts →
          charts ≠ [] → uninstall_command arg ∈ (HelmClient.uninstall exec arg).2)
    ∧ (arg.ignore_not_found = false →
        (HelmClient.uninstall exec arg).2 = [uninstall_command arg]) := by
  refine ⟨?_, ?_, ?_⟩
  · intro hflag hempty
    constructor
    · simp [HelmClient.uninstall, hflag, hempty]
    · simp [HelmClient.uninstall, hflag, hempty, get_installed_commands]
      exact uninstall_command_ne_get_installed arg arg.release arg.nspace
  · intro hflag charts hcharts hne
    cases charts with
    | nil => exact absurd rfl hne
    | cons c t =>
      cases hz : exec (uninstall_command arg) <;>
        simp [HelmClient.uninstall, hflag, hcharts, hz]
  · intro hflag
    cases hz : exec (uninstall_command arg) <;> simp [HelmClient.uninstall, hflag, hz]

/-- Witness for C3: a concrete ignore-not-found uninstall against an
oracle whose lookup decodes to the empty list reports success without
the uninstall command ever being executed. -/
theorem uninstall_ignore_not_found_short_circuit_witness :
    (HelmClient.uninstall execEmptyList uninstallArg0).1 = .ok ()
      ∧ uninstall_command uninstallArg0 ∉ (HelmClient.uninstall execEmptyList uninstallArg0).2 :=
  (uninstall_ignore_not_found_short_circuit execEmptyList uninstallArg0).1 rfl rfl

/-- stderr classification, marker case: a decodable stderr containing
the cluster-unreachable marker is reported as `FailedToConnect`. -/
theorem check_helm_stderr_marker (stderr s : List Nat)
    (hdec : utf8Decode stderr = some s) (hmark : hasSub kubeMarker s = true) :
    check_helm_stderr stderr = .error .FailedToConnect := by
  cases stderr with
  | nil =>
    exfalso
    injection hdec with hs
    rw [← hs] at hmark
    exact absurd hmark (by decide)
  | cons a t =>
    unfold check_helm_stderr
    rw [hdec]
    simp [hmark]

/-- stderr classification, clean case: a decodable stderr without the
marker passes the check. -/
theorem check_helm_stderr_clean (stderr s : List Nat)
    (hdec : utf8Decode stderr = some s) (hmark : hasSub kubeMarker s = false) :
    check_helm_stderr stderr = .ok () := by
  cases stderr with
  | nil => rfl
  | cons a t =>
    unfold check_helm_stderr
    rw [hdec]
    simp [hmark]

/-- stderr classification, invalid-encoding case. -/
theorem check_helm_stderr_bad_utf8 (stderr : List Nat)
    (hdec : utf8Decode stderr = none) :
    check_helm_stderr stderr = .error .Utf8Error := by
  cases stderr with
  | nil => exact absurd hdec (by decide)
  | cons a t =>
    unfold check_helm_stderr
    rw [hdec]
    simp

/-- C4: for every read operation, a captured stderr that decodes to
text containing `Kubernetes cluster unreachable` makes the operation
return `FailedToConnect` regardless of stdout; otherwise the stderr is
ignored and stdout is decoded normally. -/
theorem read_ops_cluster_unreachable (exec : Exec) (chart version name : String)
    (nspace : Option String) (garg : GetInstalledArg) (out : Output) (s : List Nat)
    (hdec : utf8Decode out.stderr = some s)
    (h1 : exec (search_repo_command chart version) = .ok out)
    (h2 : exec (versions_command chart) = .ok out)
    (h3 : exec (get_installed_command name nspace) = .ok out)
    (h4 : exec (get_installed_arg_command garg) = .ok out) :
    (hasSub kubeMarker s = true →
      (HelmClient.search_repo exec chart version).1 = .error .FailedToConnect
      ∧ (HelmClient.versions exec chart).1 = .error .FailedToConnect
      ∧ (HelmClient.get_installed_chart_by_name exec name nspace).1 = .error .FailedToConnect
      ∧ (HelmClient.list_installed exec garg).1 = .error .FailedToConnect)
    ∧ (hasSub kubeMarker s = false →
      (HelmClient.search_repo exec chart version).1 = from_slice_charts out.stdout
      ∧ (HelmClient.versions exec chart).1 = from_slice_charts out.stdout
      ∧ (HelmClient.get_installed_chart_by_name exec name nspace).1
          = from_slice_installed out.stdout
      ∧ (HelmClient.list_installed exec garg).1 = from_slice_installed out.stdout) := by
  refine ⟨fun hmark => ?_, fun hmark => ?_⟩
  · have hc := check_helm_stderr_marker out.stderr s hdec hmark
    refine ⟨?_, ?_, ?_, ?_⟩ <;>
      simp [HelmClient.search_repo, HelmClient.versions,
        HelmClient.get_installed_chart_by_name, HelmClient.list_installed,
        h1, h2, h3, h4, hc]
  · have hc := check_helm_stderr_clean out.stderr s hdec hmark
    refine ⟨?_, ?_, ?_, ?_⟩ <;>
      simp [HelmClient.search_repo, HelmClient.versions,
        HelmClient.get_installed_chart_by_name, HelmClient.list_installed,
        h1, h2, h3, h4, hc]

/-- Witness for C4: a concrete cluster-unreachable stderr makes both a
search and a list-installed read fail with `FailedToConnect` even
though stdout alone decodes fine. -/
theorem read_ops_cluster_unreachable_witness :
    (HelmClient.search_repo execUnreachable "fluvio" "0.9.1").1
        = .error .FailedToConnect
    ∧ (HelmClient.list_installed execUnreachable gargNone).1
        = .error .FailedToConnect := by
  have h := read_ops_cluster_unreachable execUnreachable "fluvio" "0.9.1" "fluvio" none
      gargNone
      { stdout := codes "[]", stderr := codes "Error: Kubernetes cluster unreachable" }
      (codes "Error: Kubernetes cluster unreachable") rfl rfl rfl rfl rfl
  exact ⟨(h.1 rfl).1, (h.1 rfl).2.2.2⟩

/-- C9: for every read operation, a non-empty stderr whose bytes are
not valid UTF-8 yields the `Utf8Error` even when stdout alone would
decode, and an empty stderr always passes the check. -/
theorem read_ops_invalid_utf8_stderr (exec : Exec) (chart version name : String)
    (nspace : Option String) (garg : GetInstalledArg) (out : Output)
    (hdec : utf8Decode out.stderr = none)
    (h1 : exec (search_repo_command chart version) = .ok out)
    (h2 : exec (versions_command chart) = .ok out)
    (h3 : exec (get_installed_command name nspace) = .ok out)
    (h4 : exec (get_installed_arg_command garg) = .ok out) :
    ((HelmClient.search_repo exec chart version).1 = .error .Utf8Error
      ∧ (HelmClient.versions exec chart).1 = .error .Utf8Error
      ∧ (HelmClient.get_installed_chart_by_name exec name nspace).1 = .error .Utf8Error
      ∧ (HelmClient.list_installed exec garg).1 = .error .Utf8Error)
    ∧ out.stderr ≠ []
    ∧ check_helm_stderr [] = .ok () := by
  have hc := check_helm_stderr_bad_utf8 out.stderr hdec
  refine ⟨⟨?_, ?_, ?_, ?_⟩, ?_, rfl⟩
  · simp [HelmClient.search_repo, h1, hc]
  · simp [HelmClient.versions, h2, hc]
  · simp [HelmClient.get_installed_chart_by_name, h3, hc]
  · simp [HelmClient.list_installed, h4, hc]
  · intro h0
    rw [h0] at hdec
    exact absurd hdec (by decide)

/-- Witness for C9: a single invalid byte on stderr fails a search with
`Utf8Error` although the stdout `[]` decodes to the empty list. -/
theorem read_ops_invalid_utf8_stderr_witness :
    (HelmClient.search_repo execBadStderr "fluvio" "0.9.1").1 = .error .Utf8Error
    ∧ from_slice_charts (codes "[]") = .ok [] := by
  have h := read_ops_invalid_utf8_stderr execBadStderr "fluvio" "0.9.1" "fluvio" none
      gargNone { stdout := codes "[]", stderr := [0xFF] } rfl rfl rfl rfl rfl
  exact ⟨h.1.1, rfl⟩
